import Mathlib

/-!
# consul-k8s: port-forward session, annotation waiter and `proxy read` command

A shallow embedding of

* `cli/common/portforward.go`   (`PortForward.Open`, `Close`, `allocateLocalPort`,
  `loadApiClientConfig`),
* `cli/cmd/proxy/read/command.go` (`ReadCommand.parseFlags`, `ReadCommand.outputConfig`),
* `control-plane/cni/main_test.go` (`createPodWithAnnotation`, the test tables) together
  with the two functions under test, whose file is not among the sources.

Calls into the Go standard library and into client-go are outcomes supplied by an
environment record; Go's `error` interface is the error message, `none` standing for `nil`.
-/

set_option autoImplicit false

/-! ## Go runtime notions -/

/-- A Go `error` value, identified with its message. `Option GoError` is the nilable
interface, `none` being `nil`. -/
abbrev GoError := String

deriving instance DecidableEq for Except

/-- Run-time faults (Go panics) that the modelled code can raise. -/
inductive Panic where
  /-- A method call through a nil interface value. -/
  | nilDereference
  /-- The built-in `close` applied to a nil channel. -/
  | closeOfNilChannel
  /-- The built-in `close` applied to a channel that is closed already. -/
  | closeOfClosedChannel
  deriving DecidableEq, Repr

/-- What a channel-typed field holds, as far as the operations this package performs on
it (`make`, `close`) are concerned. -/
inductive Chan where
  /-- The zero value: no channel was made. -/
  | nil
  /-- A channel made with `make` and not closed. -/
  | open
  /-- A channel on which `close` has run. -/
  | closed
  deriving DecidableEq, Repr

/-- The built-in `close(ch)`: faults on a nil channel and on a closed one. -/
def Chan.close : Chan → Except Panic Chan
  | .nil => .error .closeOfNilChannel
  | .open => .ok .closed
  | .closed => .error .closeOfClosedChannel

/-! ## `cli/common/portforward.go` -/

/-- The part of `kubernetes.Interface` that `Open` uses: the URL the REST client builds for
`Post().Resource(r).Namespace(ns).Name(n).SubResource(s).URL()`. -/
structure KubeClient where
  URL : (resource ns name subResource : String) → String

/-- The `*rest.Config` returned by the client configuration loader. -/
structure RestConfig where
  Host : String
  deriving DecidableEq, Repr

/-- The `PortForward` struct (portforward.go:21-41). -/
structure PortForward where
  Namespace : String
  PodName : String
  RemotePort : Int
  KubeClient : Option KubeClient
  KubeConfig : String
  KubeContext : String
  localPort : Int
  stopChan : Chan
  readyChan : Chan
  portForwardURL : Option String

/-- The listener returned by `net.Listen`: its address string and the outcome of
closing it. -/
structure Listener where
  Addr : String
  Close : Option GoError

/-- The events the final `select` of `Open` waits for (portforward.go:93-104). -/
inductive Event where
  /-- The case `err := <-errChan`: the value `ForwardPorts` returned, possibly nil. -/
  | err (e : Option GoError)
  /-- The case `<-pf.readyChan`. -/
  | ready
  /-- The case `<-ctx.Done()`. -/
  | done
  /-- The case `<-time.After(time.Second * 5)`. -/
  | timer
  deriving DecidableEq, Repr

/-- When each source of the final `select` becomes able to proceed, in nanoseconds after
the `select` starts waiting (`0`: able to proceed when the `select` is evaluated; `none`:
never), together with the runtime's pseudo-random pick among several such cases. -/
structure Signals where
  errAt : Option (Nat × Option GoError)
  readyAt : Option Nat
  doneAt : Option Nat
  pick : Nat

/-- The duration `time.Second * 5`, in nanoseconds. -/
def fiveSeconds : Nat := 5 * 1000000000

/-- The cases of the `select`, in source order, with the time each becomes able to
proceed. The timer case always has one. -/
def Signals.cases (s : Signals) : List (Nat × Event) :=
  (match s.errAt with
    | some (t, e) => [(t, Event.err e)]
    | none => []) ++
  (match s.readyAt with
    | some t => [(t, Event.ready)]
    | none => []) ++
  (match s.doneAt with
    | some t => [(t, Event.done)]
    | none => []) ++
  [(fiveSeconds, Event.timer)]

/-- The instant at which the `select` stops waiting: the earliest time at which some case
can proceed. -/
def Signals.firstAt (s : Signals) : Nat :=
  (s.cases.map Prod.fst).foldl min fiveSeconds

/-- The cases that can proceed at the instant the `select` stops waiting, in source
order. -/
def Signals.canProceed (s : Signals) : List Event :=
  (s.cases.filter fun c => c.1 ≤ s.firstAt).map Prod.snd

/-- Go's `select`: it waits until at least one case can proceed and takes one of the
cases that can, chosen by the runtime (here by `pick`). -/
def Signals.select (s : Signals) : Event :=
  s.canProceed.getD (s.pick % s.canProceed.length) Event.timer

/-- Outcomes of the library calls that `Open` makes, and the signals its `select`
sees. -/
structure Env where
  /-- The call `net.Listen("tcp", ":0")`. -/
  Listen : Except GoError Listener
  /-- The function `net.SplitHostPort`. -/
  SplitHostPort : String → Except GoError (String × String)
  /-- The function `strconv.Atoi`, which returns a number also when it fails. -/
  Atoi : String → Int × Option GoError
  /-- The method `ClientConfig()` of the deferred loader built from an explicit path and a
  current-context override. -/
  ClientConfig : (explicitPath currentContext : String) → Except GoError RestConfig
  /-- The error result of `spdy.RoundTripperFor(config)`. -/
  RoundTripperFor : RestConfig → Option GoError
  /-- The error result of `portforward.New(dialer, ports, ...)` for the dialer of a URL. -/
  New : (url : String) → (ports : List String) → Option GoError
  signals : Signals

namespace PortForward

/-- The method `allocateLocalPort` (portforward.go:114-131): the updated session and the
returned error. -/
def allocateLocalPort (env : Env) (pf : PortForward) : PortForward × Option GoError :=
  match env.Listen with
  | .error err => (pf, some err)
  | .ok listener =>
    match env.SplitHostPort listener.Addr with
    | .error err => (pf, some err)
    | .ok (_, port) =>
      match listener.Close with
      | some err => (pf, some ("unable to close listener " ++ err))
      | none =>
        let r := env.Atoi port
        ({ pf with localPort := r.1 }, r.2)

/-- The method `loadApiClientConfig` (portforward.go:135-146). -/
def loadApiClientConfig (env : Env) (pf : PortForward) : Except GoError RestConfig :=
  let currentContext := if pf.KubeContext ≠ "" then pf.KubeContext else ""
  env.ClientConfig pf.KubeConfig currentContext

/-- The method `Close` (portforward.go:108-110): `close(pf.stopChan)`. -/
def Close (pf : PortForward) : Except Panic PortForward :=
  match pf.stopChan.close with
  | .error p => .error p
  | .ok c => .ok { pf with stopChan := c }

/-- How far `Open` gets before its final `select`. -/
inductive Setup where
  /-- One of the early `return "", err` statements was taken. -/
  | returned (pf : PortForward) (err : GoError)
  /-- The forwarding goroutine was started and the `select` is reached. -/
  | selecting (pf : PortForward)

/-- Lines 46-89 of `Open`: everything before the final `select`. -/
def openSetup (env : Env) (pf : PortForward) : Except Panic Setup :=
  match allocateLocalPort env pf with
  | (pf, some err) => .ok (.returned pf ("failed to allocate local port: " ++ err))
  | (pf, none) =>
    match loadApiClientConfig env pf with
    | .error err => .ok (.returned pf ("failed to load API client config: " ++ err))
    | .ok config =>
      let withURL : Except Panic PortForward :=
        match pf.portForwardURL with
        | some _ => .ok pf
        | none =>
          match pf.KubeClient with
          | none => .error .nilDereference
          | some client =>
            .ok { pf with
              portForwardURL := some (client.URL "pods" pf.Namespace pf.PodName "portforward") }
      match withURL with
      | .error p => .error p
      | .ok pf =>
        match env.RoundTripperFor config with
        | some err => .ok (.returned pf ("failed to create roundtripper: " ++ err))
        | none =>
          let pf := { pf with stopChan := Chan.open, readyChan := Chan.open }
          let ports := [toString pf.localPort ++ ":" ++ toString pf.RemotePort]
          match env.New (pf.portForwardURL.getD "") ports with
          | some err => .ok (.returned pf err)
          | none => .ok (.selecting pf)

/-- Lines 93-104 of `Open`: the body of the `select` case that was taken. The result is
the session, the returned address and the returned error. -/
def openSelect (pf : PortForward) : Event → Except Panic (PortForward × String × Option GoError)
  | .err e => .ok (pf, "", e)
  | .ready => .ok (pf, "localhost:" ++ toString pf.localPort, none)
  | .done =>
    match pf.Close with
    | .error p => .error p
    | .ok pf => .ok (pf, "", some "port forward cancelled")
  | .timer =>
    match pf.Close with
    | .error p => .error p
    | .ok pf => .ok (pf, "", some "port forward timed out")

/-- The method `Open` (portforward.go:44-105). -/
def Open (env : Env) (pf : PortForward) : Except Panic (PortForward × String × Option GoError) :=
  match openSetup env pf with
  | .error p => .error p
  | .ok (.returned pf err) => .ok (pf, "", some err)
  | .ok (.selecting pf) => openSelect pf env.signals.select

end PortForward

/-! ## `cli/cmd/proxy/read/command.go` -/

/-- The constant `adminPort`: the port where the Envoy admin API is exposed. -/
def adminPort : Int := 19000

/-- The fields of `ReadCommand` that `init` registers as flag targets
(command.go:58-109). -/
structure FlagTargets where
  flagNamespace : String
  flagJSON : Bool
  flagClusters : Bool
  flagListeners : Bool
  flagRoutes : Bool
  flagEndpoints : Bool
  flagSecrets : Bool
  flagKubeConfig : String
  flagKubeContext : String
  deriving DecidableEq, Repr

/-- The flag fields of the `ReadCommand` struct (command.go:20-49): the registered flag
targets and the pod name, which is no flag target. -/
structure ReadCommand extends FlagTargets where
  flagPodName : String
  deriving DecidableEq, Repr

/-- The method `c.set.Parse` of the flag sets built by `init`: it reads the keyed
arguments, writes the registered targets and returns an error or nil. The flag package is
not among the sources, so the method is a parameter. -/
abbrev SetParse := List String → FlagTargets → FlagTargets × Option GoError

/-- The function `strings.HasPrefix`. -/
def HasPrefix (s pre : String) : Bool := pre.data.isPrefixOf s.data

/-- The loop of command.go:167-173, which collects the arguments up to the first one
that starts with "-". -/
def positionalArgs : List String → List String
  | [] => []
  | arg :: rest => if HasPrefix arg "-" then [] else arg :: positionalArgs rest

/-- The message of the error returned at command.go:177. -/
def positionalError : GoError := "Exactly one positional argument is required: <pod-name>"

namespace ReadCommand

/-- The method `parseFlags` (command.go:165-186): the updated command and the returned
error. -/
def parseFlags (setParse : SetParse) (c : ReadCommand) (args : List String) :
    ReadCommand × Option GoError :=
  let positional := positionalArgs args
  let keyed := args.drop positional.length
  if positional.length ≠ 1 then
    (c, some positionalError)
  else
    let c := { c with flagPodName := positional.headD "" }
    match setParse keyed c.toFlagTargets with
    | (targets, err) => ({ c with toFlagTargets := targets }, err)

end ReadCommand

/-- A `float64`, carried as its IEEE-754 bit pattern. -/
abbrev Float64 := Nat

/-- An entry of `EnvoyConfig.Clusters`, with the fields `outputConfig` reads. -/
structure Cluster where
  Name : String
  FullyQualifiedDomainName : String
  Endpoints : List String
  Type_ : String
  LastUpdated : String
  deriving DecidableEq, Repr

/-- An entry of `EnvoyConfig.Endpoints`, with the fields `outputConfig` reads. -/
structure Endpoint where
  Address : String
  Cluster : String
  Weight : Float64
  Status : String
  deriving DecidableEq, Repr

/-- The fields of `EnvoyConfig` that `outputConfig` reads; the struct is declared outside
the sources. -/
structure EnvoyConfig where
  rawCfg : String
  Clusters : List Cluster
  Endpoints : List Endpoint
  deriving DecidableEq, Repr

/-- The terminal options passed to `UI.Output`. -/
inductive Style where
  | plain
  | header
  deriving DecidableEq, Repr

/-- A table built by `terminal.NewTable` and `AddRow`: headers, then rows of cells with
their colours. -/
structure Table where
  Headers : List String
  Rows : List (List String × List String)
  deriving DecidableEq, Repr

/-- One call on `c.UI`. -/
inductive UICall where
  | Output (msg : String) (style : Style)
  | Table (tbl : Table)
  deriving DecidableEq, Repr

/-- The function `strings.Join`. -/
def Join : List String → String → String
  | [], _ => ""
  | [a], _ => a
  | a :: rest, sep => a ++ sep ++ Join rest sep

namespace ReadCommand

/-- The method `outputConfig` (command.go:221-260), as the list of calls it makes on the
UI. The rendering of `%f` is a parameter. -/
def outputConfig (sprintfF : Float64 → String) (c : ReadCommand) (config : EnvoyConfig) :
    List UICall :=
  if c.flagJSON then
    [UICall.Output config.rawCfg Style.plain]
  else
    let filtersPassed :=
      c.flagClusters || c.flagListeners || c.flagRoutes || c.flagEndpoints || c.flagSecrets
    (if !filtersPassed || c.flagClusters then
      [UICall.Output "Clusters" Style.header,
       UICall.Table
        { Headers := ["Name", "FQDN", "Endpoints", "Type", "Last Updated"]
          Rows := config.Clusters.map fun cluster =>
            ([cluster.Name, cluster.FullyQualifiedDomainName, Join cluster.Endpoints ", ",
              cluster.Type_, cluster.LastUpdated], []) },
       UICall.Output "" Style.plain]
    else []) ++
    (if !filtersPassed || c.flagEndpoints then
      [UICall.Output "Endpoints" Style.header,
       UICall.Table
        { Headers := ["Endpoint", "Cluster", "Weight", "Status"]
          Rows := config.Endpoints.map fun endpoint =>
            let statusColor := if endpoint.Status = "HEALTHY" then "green" else "red"
            ([endpoint.Address, endpoint.Cluster, sprintfF endpoint.Weight, endpoint.Status],
             ["", "", "", statusColor]) },
       UICall.Output "" Style.plain]
    else [])

end ReadCommand

/-! ## `control-plane/cni` -/

/-- A Go `map[string]string`, as the list of its entries. -/
abbrev StringMap := List (String × String)

/-- The map read `v, ok := m[key]`. -/
def StringMap.get (m : StringMap) (key : String) : Option String := m.lookup key

/-- The map write `m[key] = value`. -/
def StringMap.set (m : StringMap) (key value : String) : StringMap :=
  (key, value) :: m.filter fun e => e.1 ≠ key

/-- The fields of `corev1.Pod` that the tests fill: the object metadata. -/
structure Pod where
  Name : String
  Namespace : String
  Annotations : StringMap
  deriving DecidableEq, Repr

/-- The test helper `createPodWithAnnotation` (main_test.go:131-144). -/
def createPodWithAnnotation (name key value : String) : Pod :=
  let pod : Pod := { Name := name, Namespace := "default", Annotations := [] }
  if key ≠ "" then { pod with Annotations := pod.Annotations.set key value } else pod

/-- What a wait did, besides its answer: the number of checks of the annotation map and
the number of sleeps between attempts. -/
structure WaitTrace where
  checks : Nat
  sleeps : Nat
  deriving DecidableEq, Repr

/-- Modelled from the spec: the attempts of the annotation waiter, whose file
(control-plane/cni/main.go) is not among the sources. Each attempt checks whether the key
is among the keys of the snapshot; when it is, the wait returns found at once; when it is
not and attempts remain, the wait sleeps the fixed interval and retries; when the attempts
are exhausted it returns not-found. -/
def waitAttempts (pod : Pod) (key : String) : Nat → WaitTrace → Bool × WaitTrace
  | 0, tr => (false, tr)
  | remaining + 1, tr =>
    let tr := { tr with checks := tr.checks + 1 }
    if (pod.Annotations.get key).isSome then (true, tr)
    else if remaining = 0 then (false, tr)
    else waitAttempts pod key remaining { tr with sleeps := tr.sleeps + 1 }

/-- Modelled from the spec: the function `waitForAnnotation(pod, annotation, retries)` of
control-plane/cni/main.go, which is not among the sources; the tests call it with a pod
snapshot, a key and a maximum attempt count. It attempts up to `retries` times, the
attempts being 1-indexed. -/
def waitForAnnotation (pod : Pod) (key : String) (retries : Nat) : Bool × WaitTrace :=
  waitAttempts pod key retries { checks := 0, sleeps := 0 }

/-- The two kinds of failure of the structured-value parse that the spec tells apart. -/
inductive ParseError where
  /-- The key is absent; the message carries the key and the pod name. -/
  | missingKey (msg : String)
  /-- The key is present and its value is not well-formed structured data. -/
  | decode (msg : String)
  deriving DecidableEq, Repr

/-- Modelled from the spec: the function `parseAnnotation(pod, annotation)` of
control-plane/cni/main.go, which is not among the sources. It fails with the missing-key
error, whose message the test gives, when the key is absent; otherwise it decodes the
value into the typed record and fails with a decode error when the value is not
well-formed. The decoder of the record type (encoding/json on `iptables.Config`) and the
zero value of the record are parameters. -/
def parseAnnotation {Config : Type} (unmarshal : String → Except GoError Config)
    (zero : Config) (pod : Pod) (key : String) : Config × Option ParseError :=
  match pod.Annotations.get key with
  | none =>
    (zero, some (.missingKey ("could not find " ++ key ++ " annotation for " ++ pod.Name ++ " pod")))
  | some anno =>
    match unmarshal anno with
    | .error err => (zero, some (.decode err))
    | .ok cfg => (cfg, none)

/-- The field of `iptables.Config` that the tests set. -/
structure ProxyConfig where
  ProxyUserID : String
  deriving DecidableEq, Repr

/-- The keys of a map. -/
def StringMap.keys (m : StringMap) : List String := m.map Prod.fst

/-- A stand-in decoder for the concrete cases below. It is used at the empty text, which
it rejects with the message `json.Unmarshal` gives there; on other texts it reads a
one-member object with the member `ProxyUserID` and rejects the rest, and is no model of
encoding/json. -/
def demoUnmarshal (s : String) : Except GoError ProxyConfig :=
  let opening := "\x7b\"ProxyUserID\":\"".data
  let closing := "\"\x7d".data
  let body := s.data.drop opening.length
  if s = "" then .error "unexpected end of JSON input"
  else if opening.isPrefixOf s.data ∧ closing.isSuffixOf body then
    .ok { ProxyUserID := String.mk (body.take (body.length - closing.length)) }
  else .error "invalid character looking for beginning of value"

/-! ## Concrete sessions and environments -/

/-- A client whose REST URLs have the usual shape. -/
def demoClient : KubeClient :=
  { URL := fun resource ns name subResource =>
      "https://10.0.0.1/api/v1/namespaces/" ++ ns ++ "/" ++ resource ++ "/" ++ name ++ "/" ++
        subResource }

/-- A session as `ReadCommand.Run` builds it, for the pod "web" and a given remote port. -/
def demoSession (remotePort : Int) : PortForward :=
  { Namespace := "default", PodName := "web", RemotePort := remotePort
    KubeClient := some demoClient, KubeConfig := "", KubeContext := ""
    localPort := 0, stopChan := Chan.nil, readyChan := Chan.nil, portForwardURL := none }

/-- An environment in which the operating system assigns local port 40000 and every
library call succeeds. -/
def demoEnv (signals : Signals) : Env :=
  { Listen := .ok { Addr := "[::]:40000", Close := none }
    SplitHostPort := fun addr =>
      if addr = "[::]:40000" then .ok ("::", "40000") else .error "missing port in address"
    Atoi := fun port => if port = "40000" then (40000, none) else (0, some "invalid syntax")
    ClientConfig := fun _ _ => .ok { Host := "https://10.0.0.1" }
    RoundTripperFor := fun _ => none
    New := fun _ _ => none
    signals := signals }

/-- The environment of `demoEnv` in which no local port can be had. -/
def noPortEnv (signals : Signals) : Env :=
  { demoEnv signals with Listen := .error "listen tcp :0: bind: address already in use" }

/-- The session `demoSession` when its `Open` stands at the final `select`. -/
def demoSelecting (remotePort : Int) : PortForward :=
  { demoSession remotePort with
    localPort := 40000, stopChan := Chan.open, readyChan := Chan.open
    portForwardURL := some "https://10.0.0.1/api/v1/namespaces/default/pods/web/portforward" }

/-! ## Lemmas on the embedding -/

theorem openSetup_selecting {env : Env} {pf pf1 : PortForward}
    (h : PortForward.openSetup env pf = .ok (.selecting pf1)) :
    pf1.stopChan = Chan.open ∧ (PortForward.allocateLocalPort env pf).2 = none ∧
      pf1.localPort = (PortForward.allocateLocalPort env pf).1.localPort ∧
      pf1.RemotePort = pf.RemotePort := by
  unfold PortForward.openSetup at h
  have hr : (PortForward.allocateLocalPort env pf).1.RemotePort = pf.RemotePort := by
    unfold PortForward.allocateLocalPort
    repeat' split
    all_goals rfl
  generalize PortForward.allocateLocalPort env pf = r at h hr ⊢
  obtain ⟨pfa, ea⟩ := r
  cases ea with
  | some e => simp at h
  | none =>
    simp only at h hr
    split at h
    · simp at h
    · split at h
      · simp at h
      · rename_i pfu hu
        have hpfu : pfu.localPort = pfa.localPort ∧ pfu.RemotePort = pfa.RemotePort := by
          split at hu
          · cases hu; exact ⟨rfl, rfl⟩
          · split at hu
            · simp at hu
            · cases hu; exact ⟨rfl, rfl⟩
        split at h
        · simp at h
        · split at h
          · simp at h
          · simp only [Except.ok.injEq, PortForward.Setup.selecting.injEq] at h
            subst h
            exact ⟨rfl, rfl, hpfu.1, by simp [hpfu.2, hr]⟩

theorem open_of_selecting {env : Env} {pf pf1 : PortForward}
    (h : PortForward.openSetup env pf = .ok (.selecting pf1)) :
    PortForward.Open env pf = PortForward.openSelect pf1 env.signals.select := by
  simp [PortForward.Open, h]

theorem close_of_open {pf : PortForward} (h : pf.stopChan = Chan.open) :
    pf.Close = .ok { pf with stopChan := Chan.closed } := by
  simp [PortForward.Close, h, Chan.close]

theorem select_done_of_only_done {s : Signals} (hd : s.doneAt = some 0)
    (he : ∀ e, s.errAt ≠ some (0, e)) (hr : s.readyAt ≠ some 0) : s.select = Event.done := by
  obtain ⟨errAt, readyAt, doneAt, pick⟩ := s
  simp only at hd he hr
  subst hd
  have hte : ∀ t e, errAt = some (t, e) → t ≠ 0 := fun t e h h0 => he e (by simp [h, h0])
  have htr : ∀ t, readyAt = some t → t ≠ 0 := fun t h h0 => hr (by simp [h, h0])
  rcases errAt with _ | ⟨t, e⟩ <;> rcases readyAt with _ | t'
  · simp [Signals.select, Signals.canProceed, Signals.cases, Signals.firstAt, fiveSeconds,
      List.filter_cons, Nat.mod_one]
  · have h1 := htr t' rfl
    simp [Signals.select, Signals.canProceed, Signals.cases, Signals.firstAt, fiveSeconds,
      List.filter_cons, Nat.mod_one, h1]
  · have h1 := hte t e rfl
    simp [Signals.select, Signals.canProceed, Signals.cases, Signals.firstAt, fiveSeconds,
      List.filter_cons, Nat.mod_one, h1]
  · have h1 := hte t e rfl
    have h2 := htr t' rfl
    simp [Signals.select, Signals.canProceed, Signals.cases, Signals.firstAt, fiveSeconds,
      List.filter_cons, Nat.mod_one, h1, h2]

theorem select_of_err_and_ready {s : Signals} {e : Option GoError}
    (he : s.errAt = some (0, e)) (hr : s.readyAt = some 0) (hd : s.doneAt ≠ some 0) :
    s.select = if s.pick % 2 = 0 then Event.err e else Event.ready := by
  obtain ⟨errAt, readyAt, doneAt, pick⟩ := s
  simp only at hd he hr
  subst he hr
  have h2 : pick % 2 = 0 ∨ pick % 2 = 1 := by omega
  rcases doneAt with _ | t
  · rcases h2 with h | h <;>
      simp [Signals.select, Signals.canProceed, Signals.cases, Signals.firstAt, fiveSeconds, h]
  · have ht : t ≠ 0 := fun h => hd (by simp [h])
    rcases h2 with h | h <;>
      simp [Signals.select, Signals.canProceed, Signals.cases, Signals.firstAt, fiveSeconds, h, ht]

theorem get_isSome_iff_mem_keys (m : StringMap) (key : String) :
    (m.get key).isSome = true ↔ key ∈ m.keys := by
  induction m with
  | nil => simp [StringMap.get, StringMap.keys]
  | cons e rest ih =>
    obtain ⟨k, v⟩ := e
    simp only [StringMap.get, StringMap.keys, List.lookup_cons, List.map_cons,
      List.mem_cons] at ih ⊢
    by_cases h : key = k
    · subst h; simp
    · have hb : (key == k) = false := by simpa using h
      simp [hb, h, ih]

theorem get_eq_none_iff_not_mem_keys (m : StringMap) (key : String) :
    m.get key = none ↔ key ∉ m.keys := by
  rw [← get_isSome_iff_mem_keys]
  cases m.get key <;> simp

theorem waitAttempts_present (pod : Pod) (key : String) (r : Nat) (tr : WaitTrace)
    (h : (pod.Annotations.get key).isSome = true) :
    waitAttempts pod key (r + 1) tr = (true, { tr with checks := tr.checks + 1 }) := by
  simp [waitAttempts, h]

theorem waitAttempts_absent (pod : Pod) (key : String) (h : pod.Annotations.get key = none) :
    ∀ (r : Nat) (tr : WaitTrace), waitAttempts pod key (r + 1) tr =
      (false, { checks := tr.checks + (r + 1), sleeps := tr.sleeps + r }) := by
  intro r
  induction r with
  | zero => intro tr; simp [waitAttempts, h]
  | succ r ih =>
    intro tr
    rw [waitAttempts]
    simp only [h, Option.isSome_none, Bool.false_eq_true, if_false, Nat.add_one_ne_zero]
    rw [ih]
    simp only [Prod.mk.injEq, WaitTrace.mk.injEq, true_and]
    omega

theorem positionalArgs_eq_takeWhile (args : List String) :
    positionalArgs args = args.takeWhile fun a => !HasPrefix a "-" := by
  induction args with
  | nil => rfl
  | cons a rest ih =>
    by_cases h : HasPrefix a "-" = true
    · simp [positionalArgs, List.takeWhile_cons, h]
    · simp [positionalArgs, List.takeWhile_cons, h, ih]

theorem positionalArgs_append_keyed (args : List String) :
    positionalArgs args ++ args.drop (positionalArgs args).length = args := by
  induction args with
  | nil => rfl
  | cons a rest ih =>
    by_cases h : HasPrefix a "-" = true
    · simp [positionalArgs, h]
    · simp [positionalArgs, h, ih]

theorem positionalArgs_no_dash (args : List String) :
    ∀ a ∈ positionalArgs args, HasPrefix a "-" = false := by
  induction args with
  | nil => simp [positionalArgs]
  | cons b rest ih =>
    by_cases h : HasPrefix b "-" = true
    · simp [positionalArgs, h]
    · intro a ha
      simp only [positionalArgs, h, Bool.false_eq_true, if_false, List.mem_cons] at ha
      rcases ha with rfl | ha
      · simpa using h
      · exact ih a ha

theorem keyed_head_dash (args : List String) :
    ∀ a, (args.drop (positionalArgs args).length).head? = some a → HasPrefix a "-" = true := by
  induction args with
  | nil => simp [positionalArgs]
  | cons b rest ih =>
    by_cases h : HasPrefix b "-" = true
    · intro a ha
      simp only [positionalArgs, h, if_true, List.length_nil, List.drop_zero,
        List.head?_cons, Option.some.injEq] at ha
      subst ha
      exact h
    · intro a ha
      simp only [positionalArgs, h, Bool.false_eq_true, if_false, List.length_cons,
        List.drop_succ_cons] at ha
      exact ih a ha

/-! ## The final `select` of `Open` -/

/-- C1: when `Open` reaches its final select (local port allocated, client config loaded,
forwarder created) the stop channel is open, and the result is fixed by the event the
select takes: an error `e` from the error channel gives `("", e)` with the stop channel
left open; the ready signal gives `("localhost:<localPort>", nil)` with the stop channel
left open; the context's Done signal and the 5-second timer each run `Close` once on the
open stop channel, which leaves it closed, and return the errors "port forward cancelled"
and "port forward timed out", two different messages. -/
theorem open_result_fixed_by_select_event (env : Env) (pf pf1 : PortForward)
    (hsetup : PortForward.openSetup env pf = .ok (.selecting pf1)) :
    pf1.stopChan = Chan.open ∧
    (∀ e, env.signals.select = Event.err e → PortForward.Open env pf = .ok (pf1, "", e)) ∧
    (env.signals.select = Event.ready →
      PortForward.Open env pf = .ok (pf1, "localhost:" ++ toString pf1.localPort, none)) ∧
    (env.signals.select = Event.done →
      pf1.Close = .ok { pf1 with stopChan := Chan.closed } ∧
      PortForward.Open env pf =
        .ok ({ pf1 with stopChan := Chan.closed }, "", some "port forward cancelled")) ∧
    (env.signals.select = Event.timer →
      pf1.Close = .ok { pf1 with stopChan := Chan.closed } ∧
      PortForward.Open env pf =
        .ok ({ pf1 with stopChan := Chan.closed }, "", some "port forward timed out")) ∧
    ("port forward cancelled" : GoError) ≠ "port forward timed out" := by
  have hopen := (openSetup_selecting hsetup).1
  have hclose := close_of_open hopen
  rw [open_of_selecting hsetup]
  refine ⟨hopen, ?_, ?_, ?_, ?_, by decide⟩
  · intro e he
    rw [he]; rfl
  · intro he
    rw [he]; rfl
  · intro he
    rw [he]
    exact ⟨hclose, by simp [PortForward.openSelect, hclose]⟩
  · intro he
    rw [he]
    exact ⟨hclose, by simp [PortForward.openSelect, hclose]⟩

/-- C1, at a concrete session: nothing arrives within five seconds, the timer case is
taken, and `Open` returns the time-out error with the stop channel closed. -/
theorem open_result_fixed_by_select_event_witness :
    PortForward.Open (demoEnv { errAt := none, readyAt := none, doneAt := none, pick := 0 })
        (demoSession 19000) =
      .ok ({ demoSelecting 19000 with stopChan := Chan.closed }, "",
        some "port forward timed out") :=
  ((open_result_fixed_by_select_event
    (demoEnv { errAt := none, readyAt := none, doneAt := none, pick := 0 })
    (demoSession 19000) (demoSelecting 19000) rfl).2.2.2.2.1 (by decide)).2

/-! ## The address returned by `Open` -/

/-- C2 fails as stated, at two sessions with namespace "default", pod "web" and a positive
remote port. For remote port 40000, the operating system assigns local port 40000 as
well, the ready case is taken, and `Open` succeeds with "localhost:40000": the allocated
port equals the remote port. For remote port 19000, `ForwardPorts` has returned nil on the
error channel, that case is taken, and `Open` returns a nil error with the empty
address. -/
theorem open_address_counterexample :
    ((demoSession 40000).Namespace ≠ "" ∧ (demoSession 40000).PodName ≠ "" ∧
      0 < (demoSession 40000).RemotePort ∧
      PortForward.Open (demoEnv { errAt := none, readyAt := some 0, doneAt := none, pick := 0 })
          (demoSession 40000) = .ok (demoSelecting 40000, "localhost:40000", none) ∧
      (demoSelecting 40000).localPort = (demoSession 40000).RemotePort) ∧
    ((demoSession 19000).Namespace ≠ "" ∧ (demoSession 19000).PodName ≠ "" ∧
      0 < (demoSession 19000).RemotePort ∧
      PortForward.Open
          (demoEnv { errAt := some (0, none), readyAt := none, doneAt := none, pick := 0 })
          (demoSession 19000) = .ok (demoSelecting 19000, "", none)) := by
  refine ⟨⟨by decide, by decide, by decide, rfl, rfl⟩, by decide, by decide, by decide, rfl⟩

/-- C2, amended: whenever `Open` returns a nil error through the ready case of its select,
`allocateLocalPort` succeeded during this call, the session's local port is the number it
stored, and the returned address is exactly "localhost:" followed by the decimal rendering
of that number. Nothing relates the number to the remote port. -/
theorem open_ready_address (env : Env) (pf pf' : PortForward) (addr : String)
    (hopen : PortForward.Open env pf = .ok (pf', addr, none))
    (hready : env.signals.select = Event.ready) :
    (PortForward.allocateLocalPort env pf).2 = none ∧
    pf'.localPort = (PortForward.allocateLocalPort env pf).1.localPort ∧
    addr = "localhost:" ++ toString (PortForward.allocateLocalPort env pf).1.localPort := by
  unfold PortForward.Open at hopen
  split at hopen
  · simp at hopen
  · simp at hopen
  · rename_i pf1 hsetup
    obtain ⟨-, halloc, hport, -⟩ := openSetup_selecting hsetup
    rw [hready] at hopen
    simp only [PortForward.openSelect, Except.ok.injEq, Prod.mk.injEq] at hopen
    obtain ⟨h1, h2, -⟩ := hopen
    subst h1
    exact ⟨halloc, hport, by rw [← hport, ← h2]⟩

/-- C2, amended, at the session for remote port 19000 with local port 40000: the address
is "localhost:40000". -/
theorem open_ready_address_witness :
    (PortForward.allocateLocalPort
        (demoEnv { errAt := none, readyAt := some 0, doneAt := none, pick := 0 })
        (demoSession 19000)).2 = none ∧
    (demoSelecting 19000).localPort = 40000 ∧
    ("localhost:40000" : String) = "localhost:" ++ toString (40000 : Int) :=
  open_ready_address (demoEnv { errAt := none, readyAt := some 0, doneAt := none, pick := 0 })
    (demoSession 19000) (demoSelecting 19000) "localhost:40000" rfl (by decide)

/-! ## `Open` under a context that is cancelled already -/

/-- C3 fails as stated, at three calls of `Open` whose context is done when the select is
evaluated (`doneAt = some 0`). When no local port can be had, `Open` returns the allocation
error and the stop channel stays nil. When an error is on the error channel as well and
the runtime picks that case, `Open` returns that error and the stop channel stays open.
When the ready signal is there as well and the runtime picks it, `Open` succeeds. -/
theorem open_cancelled_counterexample :
    PortForward.Open (noPortEnv { errAt := none, readyAt := none, doneAt := some 0, pick := 0 })
        (demoSession 19000) =
      .ok (demoSession 19000, "",
        some "failed to allocate local port: listen tcp :0: bind: address already in use") ∧
    (demoSession 19000).stopChan = Chan.nil ∧
    PortForward.Open
        (demoEnv { errAt := some (0, some "error upgrading connection: pods \"web\" is forbidden"),
                   readyAt := none, doneAt := some 0, pick := 0 })
        (demoSession 19000) =
      .ok (demoSelecting 19000, "", some "error upgrading connection: pods \"web\" is forbidden") ∧
    (demoSelecting 19000).stopChan = Chan.open ∧
    PortForward.Open (demoEnv { errAt := none, readyAt := some 0, doneAt := some 0, pick := 0 })
        (demoSession 19000) = .ok (demoSelecting 19000, "localhost:40000", none) := by
  refine ⟨rfl, rfl, rfl, rfl, rfl⟩

/-- C3, amended: `Open` called with a context that is cancelled already returns the error
"port forward cancelled", after running `Close` once on the open stop channel, whenever
the steps before the select succeed and neither a value on the error channel nor the ready
signal is available when the select is evaluated. -/
theorem open_cancelled_when_only_done (env : Env) (pf pf1 : PortForward)
    (hsetup : PortForward.openSetup env pf = .ok (.selecting pf1))
    (hdone : env.signals.doneAt = some 0)
    (herr : ∀ e, env.signals.errAt ≠ some (0, e))
    (hready : env.signals.readyAt ≠ some 0) :
    pf1.stopChan = Chan.open ∧
    pf1.Close = .ok { pf1 with stopChan := Chan.closed } ∧
    PortForward.Open env pf =
      .ok ({ pf1 with stopChan := Chan.closed }, "", some "port forward cancelled") := by
  have hopen := (openSetup_selecting hsetup).1
  have hclose := close_of_open hopen
  refine ⟨hopen, hclose, ?_⟩
  rw [open_of_selecting hsetup, select_done_of_only_done hdone herr hready]
  simp [PortForward.openSelect, hclose]

/-- C3, amended, at a concrete session: the context is cancelled already, the forwarder
would become ready after 20 ms, and `Open` returns the cancellation error with the stop
channel closed. -/
theorem open_cancelled_when_only_done_witness :
    PortForward.Open
        (demoEnv { errAt := none, readyAt := some 20000000, doneAt := some 0, pick := 3 })
        (demoSession 19000) =
      .ok ({ demoSelecting 19000 with stopChan := Chan.closed }, "",
        some "port forward cancelled") :=
  (open_cancelled_when_only_done
    (demoEnv { errAt := none, readyAt := some 20000000, doneAt := some 0, pick := 3 })
    (demoSession 19000) (demoSelecting 19000) rfl rfl (fun _ h => nomatch h) (by decide)).2.2

/-! ## Error and ready both available -/

/-- C4 fails as stated: with an error on the error channel and the ready signal both
available when the select is evaluated, and the runtime picking the second of the two
cases, `Open` returns the success result "localhost:40000" with a nil error. -/
theorem open_error_precedence_counterexample :
    PortForward.Open
        (demoEnv { errAt := some (0, some "lost connection to pod"), readyAt := some 0,
                   doneAt := none, pick := 1 })
        (demoSession 19000) = .ok (demoSelecting 19000, "localhost:40000", none) := by
  rfl

/-- C4, amended: the select gives neither case precedence. In every state in which a value
`e` on the error channel and the ready signal are both available when the select is
evaluated, and the context is not done, `Open` returns `("", e)` when the runtime picks the
error case and `("localhost:<localPort>", nil)` when it picks the ready case. -/
theorem open_error_or_ready_by_pick (env : Env) (pf pf1 : PortForward) (e : Option GoError)
    (hsetup : PortForward.openSetup env pf = .ok (.selecting pf1))
    (herr : env.signals.errAt = some (0, e))
    (hready : env.signals.readyAt = some 0)
    (hdone : env.signals.doneAt ≠ some 0) :
    (env.signals.pick % 2 = 0 → PortForward.Open env pf = .ok (pf1, "", e)) ∧
    (env.signals.pick % 2 = 1 →
      PortForward.Open env pf = .ok (pf1, "localhost:" ++ toString pf1.localPort, none)) := by
  rw [open_of_selecting hsetup, select_of_err_and_ready herr hready hdone]
  constructor
  · intro h
    simp [h, PortForward.openSelect]
  · intro h
    simp [h, PortForward.openSelect]

/-- C4, amended, at a concrete session: the runtime picks the error case and `Open`
returns the error. -/
theorem open_error_or_ready_by_pick_witness :
    PortForward.Open
        (demoEnv { errAt := some (0, some "lost connection to pod"), readyAt := some 0,
                   doneAt := none, pick := 4 })
        (demoSession 19000) = .ok (demoSelecting 19000, "", some "lost connection to pod") :=
  (open_error_or_ready_by_pick
    (demoEnv { errAt := some (0, some "lost connection to pod"), readyAt := some 0,
               doneAt := none, pick := 4 })
    (demoSession 19000) (demoSelecting 19000) (some "lost connection to pod")
    rfl rfl rfl (by decide)).1 (by decide)

/-! ## `Close` -/

/-- C5: `Close` completes without fault if and only if the stop channel is open (made by
`Open` and not closed yet); when it completes it has closed the stop channel and changed
no other field. It faults when called a second time, when called on a session that was
never opened (nil stop channel), and after an `Open` whose select took the Done case or
the timer case; it completes after an `Open` whose select took the ready case or received
from the error channel. -/
theorem close_completes_iff_stop_open :
    (∀ pf : PortForward, (∃ pf', pf.Close = .ok pf') ↔ pf.stopChan = Chan.open) ∧
    (∀ pf pf' : PortForward, pf.Close = .ok pf' → pf' = { pf with stopChan := Chan.closed }) ∧
    (∀ pf pf' : PortForward, pf.Close = .ok pf' →
      pf'.Close = .error Panic.closeOfClosedChannel) ∧
    (∀ pf : PortForward, pf.stopChan = Chan.nil → pf.Close = .error Panic.closeOfNilChannel) ∧
    (∀ (env : Env) (pf pf1 : PortForward),
      PortForward.openSetup env pf = .ok (.selecting pf1) →
      env.signals.select = Event.done ∨ env.signals.select = Event.timer →
      ∃ pf' addr err, PortForward.Open env pf = .ok (pf', addr, some err) ∧
        pf'.Close = .error Panic.closeOfClosedChannel) ∧
    (∀ (env : Env) (pf pf1 : PortForward),
      PortForward.openSetup env pf = .ok (.selecting pf1) →
      (env.signals.select = Event.ready ∨ ∃ e, env.signals.select = Event.err e) →
      ∃ pf' addr err, PortForward.Open env pf = .ok (pf', addr, err) ∧
        pf'.Close = .ok { pf' with stopChan := Chan.closed }) := by
  have hiff : ∀ pf : PortForward, (∃ pf', pf.Close = .ok pf') ↔ pf.stopChan = Chan.open := by
    intro pf
    unfold PortForward.Close
    cases h : pf.stopChan <;> simp [Chan.close]
  have hres : ∀ pf pf' : PortForward, pf.Close = .ok pf' →
      pf' = { pf with stopChan := Chan.closed } := by
    intro pf pf' h
    have ho := (hiff pf).1 ⟨pf', h⟩
    rw [close_of_open ho] at h
    exact (Except.ok.inj h).symm
  refine ⟨hiff, hres, ?_, ?_, ?_, ?_⟩
  · intro pf pf' h
    rw [hres pf pf' h]
    simp [PortForward.Close, Chan.close]
  · intro pf h
    simp [PortForward.Close, Chan.close, h]
  · intro env pf pf1 hsetup hsel
    have hclose := close_of_open (openSetup_selecting hsetup).1
    rw [open_of_selecting hsetup]
    rcases hsel with h | h
    · exact ⟨{ pf1 with stopChan := Chan.closed }, "", "port forward cancelled",
        by simp [h, PortForward.openSelect, hclose], by simp [PortForward.Close, Chan.close]⟩
    · exact ⟨{ pf1 with stopChan := Chan.closed }, "", "port forward timed out",
        by simp [h, PortForward.openSelect, hclose], by simp [PortForward.Close, Chan.close]⟩
  · intro env pf pf1 hsetup hsel
    have hclose := close_of_open (openSetup_selecting hsetup).1
    rw [open_of_selecting hsetup]
    rcases hsel with h | ⟨e, h⟩
    · exact ⟨pf1, "localhost:" ++ toString pf1.localPort, none,
        by simp [h, PortForward.openSelect], hclose⟩
    · exact ⟨pf1, "", e, by simp [h, PortForward.openSelect], hclose⟩

/-- C5, at concrete sessions: `Close` faults on the session that was never opened and on
the session an `Open` left after its time-out, and completes on the session an `Open` left
at its select with the stop channel open. -/
theorem close_completes_iff_stop_open_witness :
    (demoSession 19000).Close = .error Panic.closeOfNilChannel ∧
    PortForward.Close { demoSelecting 19000 with stopChan := Chan.closed } =
      .error Panic.closeOfClosedChannel ∧
    (∃ pf', (demoSelecting 19000).Close = .ok pf') :=
  ⟨close_completes_iff_stop_open.2.2.2.1 (demoSession 19000) rfl,
   close_completes_iff_stop_open.2.2.1 (demoSelecting 19000) _ rfl,
   (close_completes_iff_stop_open.1 (demoSelecting 19000)).2 rfl⟩

/-! ## The annotation waiter -/

/-- C6: for every pod snapshot, key and maximum attempt count `n ≥ 1`, the wait returns
true if and only if the key is a key of the annotation map, whatever its value; with the
key present it makes one check and no sleep; with the key absent it makes exactly `n`
checks, with `n - 1` sleeps between them (none for `n = 1`), and returns false. The pod
annotated "pod1" -> "" gives true for `n = 1`; the pod without annotations gives false for
key "pod2" and `n = 1`. -/
theorem wait_found_iff_key_present (pod : Pod) (key : String) (n : Nat) (hn : 1 ≤ n) :
    (( waitForAnnotation pod key n).1 = true ↔ key ∈ pod.Annotations.keys) ∧
    (key ∈ pod.Annotations.keys →
      ( waitForAnnotation pod key n) = (true, { checks := 1, sleeps := 0 })) ∧
    (key ∉ pod.Annotations.keys →
      ( waitForAnnotation pod key n) = (false, { checks := n, sleeps := n - 1 })) ∧
    ( waitForAnnotation ( createPodWithAnnotation "pod1" "pod1" "") "pod1" 1).1 = true ∧
    ( waitForAnnotation ( createPodWithAnnotation "pod2" "" "") "pod2" 1).1 = false := by
  obtain ⟨r, rfl⟩ : ∃ r, n = r + 1 := ⟨n - 1, by omega⟩
  have hpresent : key ∈ pod.Annotations.keys →
      ( waitForAnnotation pod key (r + 1)) = (true, { checks := 1, sleeps := 0 }) := by
    intro h
    rw [ waitForAnnotation,
      waitAttempts_present pod key r _ ((get_isSome_iff_mem_keys _ _).2 h)]
  have habsent : key ∉ pod.Annotations.keys →
      ( waitForAnnotation pod key (r + 1)) =
        (false, { checks := r + 1, sleeps := r + 1 - 1 }) := by
    intro h
    rw [ waitForAnnotation,
      waitAttempts_absent pod key ((get_eq_none_iff_not_mem_keys _ _).2 h)]
    simp
  refine ⟨?_, hpresent, habsent, by decide, by decide⟩
  by_cases h : key ∈ pod.Annotations.keys
  · simp [hpresent h, h]
  · simp [habsent h, h]

/-- C6, at the first test case with three attempts allowed: the key is found on the first
check. -/
theorem wait_found_iff_key_present_witness :
    ( waitForAnnotation ( createPodWithAnnotation "pod1" "pod1" "") "pod1" 3) =
      (true, { checks := 1, sleeps := 0 }) :=
  (wait_found_iff_key_present ( createPodWithAnnotation "pod1" "pod1" "") "pod1" 3
    (by decide)).2.1 (by decide)

/-! ## The structured-value parse -/

/-- C7: for every pod snapshot and key, the parse fails with the missing-key error if and
only if the key is absent from the annotations; it then returns the zero-value record and
the message "could not find <key> annotation for <pod name> pod". When the key is present
and its value does not decode, the error is a decode error and not the missing-key
error. -/
theorem parse_missing_key_iff_absent {Config : Type}
    (unmarshal : String → Except GoError Config) (zero : Config) (pod : Pod) (key : String) :
    ((∃ msg, ( parseAnnotation unmarshal zero pod key).2 = some (ParseError.missingKey msg)) ↔
      key ∉ pod.Annotations.keys) ∧
    (key ∉ pod.Annotations.keys →
      ( parseAnnotation unmarshal zero pod key) =
        (zero, some (ParseError.missingKey
          ("could not find " ++ key ++ " annotation for " ++ pod.Name ++ " pod")))) ∧
    (∀ anno err, pod.Annotations.get key = some anno → unmarshal anno = .error err →
      (∃ msg, ( parseAnnotation unmarshal zero pod key).2 = some (ParseError.decode msg)) ∧
      ∀ msg, ( parseAnnotation unmarshal zero pod key).2 ≠ some (ParseError.missingKey msg)) := by
  refine ⟨?_, ?_, ?_⟩
  · rw [← get_eq_none_iff_not_mem_keys]
    unfold parseAnnotation
    cases pod.Annotations.get key with
    | none => simp
    | some anno => cases h : unmarshal anno <;> simp [h]
  · intro h
    simp [ parseAnnotation, (get_eq_none_iff_not_mem_keys _ _).2 h]
  · intro anno err hget herr
    simp [ parseAnnotation, hget, herr]

/-- C7, at the second test case and at a pod whose value for the key is the empty string:
the pod "pod2" without annotations gives the zero record and the missing-key message of
the test; the empty value gives a decode error. -/
theorem parse_missing_key_iff_absent_witness :
    ( parseAnnotation demoUnmarshal { ProxyUserID := "" } ( createPodWithAnnotation "pod2" "" "")
        "consul.hashicorp.com/cni-proxy-config") =
      ({ ProxyUserID := "" }, some (ParseError.missingKey
        "could not find consul.hashicorp.com/cni-proxy-config annotation for pod2 pod")) ∧
    (∃ msg, ( parseAnnotation demoUnmarshal { ProxyUserID := "" }
        ( createPodWithAnnotation "pod3" "consul.hashicorp.com/cni-proxy-config" "")
        "consul.hashicorp.com/cni-proxy-config").2 = some (ParseError.decode msg)) :=
  ⟨(parse_missing_key_iff_absent demoUnmarshal { ProxyUserID := "" }
      ( createPodWithAnnotation "pod2" "" "") "consul.hashicorp.com/cni-proxy-config").2.1
      (by decide),
   ((parse_missing_key_iff_absent demoUnmarshal { ProxyUserID := "" }
      ( createPodWithAnnotation "pod3" "consul.hashicorp.com/cni-proxy-config" "")
      "consul.hashicorp.com/cni-proxy-config").2.2 "" "unexpected end of JSON input"
      (by decide) (by decide)).1⟩

/-! ## `parseFlags` -/

/-- C9: for every argument list, `parseFlags` takes as positional arguments the longest
prefix of the arguments none of which starts with "-" and keeps exactly the remaining
suffix for the flag-set parser. When that prefix does not have length 1 it returns the
error "Exactly one positional argument is required: <pod-name>" without changing the
command, whatever the parser; this is the only way for it to return that error whatever
the parser. When the prefix has length 1, the pod name becomes the first argument and the
result is what the parser returns for the arguments after the first. -/
theorem parseFlags_exactly_one_positional (c : ReadCommand) (args : List String) :
    positionalArgs args = (args.takeWhile fun a => !HasPrefix a "-") ∧
    positionalArgs args ++ args.drop (positionalArgs args).length = args ∧
    (∀ a ∈ positionalArgs args, HasPrefix a "-" = false) ∧
    (∀ a, (args.drop (positionalArgs args).length).head? = some a → HasPrefix a "-" = true) ∧
    ((positionalArgs args).length ≠ 1 →
      ∀ setParse : SetParse, c.parseFlags setParse args = (c, some positionalError)) ∧
    ((∀ setParse : SetParse, (c.parseFlags setParse args).2 = some positionalError) ↔
      (positionalArgs args).length ≠ 1) ∧
    ((positionalArgs args).length = 1 →
      ∃ name, args.head? = some name ∧ args.drop (positionalArgs args).length = args.drop 1 ∧
        ∀ setParse : SetParse, c.parseFlags setParse args =
          ({ toFlagTargets := (setParse (args.drop 1) c.toFlagTargets).1, flagPodName := name },
            (setParse (args.drop 1) c.toFlagTargets).2)) := by
  have hfail : (positionalArgs args).length ≠ 1 →
      ∀ setParse : SetParse, c.parseFlags setParse args = (c, some positionalError) := by
    intro h setParse
    simp [ReadCommand.parseFlags, h]
  have hone : (positionalArgs args).length = 1 →
      ∃ name, args.head? = some name ∧ args.drop (positionalArgs args).length = args.drop 1 ∧
        ∀ setParse : SetParse, c.parseFlags setParse args =
          ({ toFlagTargets := (setParse (args.drop 1) c.toFlagTargets).1, flagPodName := name },
            (setParse (args.drop 1) c.toFlagTargets).2) := by
    intro h
    obtain ⟨name, hname⟩ := List.length_eq_one.1 h
    have happ := positionalArgs_append_keyed args
    rw [hname] at happ
    refine ⟨name, ?_, by rw [h], ?_⟩
    · rw [← happ]; rfl
    · intro setParse
      simp [ReadCommand.parseFlags, hname]
  refine ⟨positionalArgs_eq_takeWhile args, positionalArgs_append_keyed args,
    positionalArgs_no_dash args, keyed_head_dash args, hfail, ⟨?_, fun h sp => ?_⟩, hone⟩
  · intro hall hlen
    obtain ⟨name, -, -, hparse⟩ := hone hlen
    have := hall fun _ targets => (targets, none)
    rw [hparse] at this
    simp at this
  · rw [hfail h sp]

/-- C9, at concrete argument lists: the empty list, a list that starts with a flag and a
list with two leading words are rejected; in "web -n default" the word after the flag is
not positional, the pod name becomes "web" and the parser receives "-n default". -/
theorem parseFlags_exactly_one_positional_witness :
    (∀ setParse : SetParse,
      ReadCommand.parseFlags setParse
        { flagNamespace := "", flagJSON := false, flagClusters := false, flagListeners := false,
          flagRoutes := false, flagEndpoints := false, flagSecrets := false,
          flagKubeConfig := "", flagKubeContext := "", flagPodName := "" }
        ["web", "db", "-json"] =
      ({ flagNamespace := "", flagJSON := false, flagClusters := false, flagListeners := false,
         flagRoutes := false, flagEndpoints := false, flagSecrets := false,
         flagKubeConfig := "", flagKubeContext := "", flagPodName := "" },
       some positionalError)) ∧
    positionalArgs [] = [] ∧ positionalArgs ["-json", "web"] = [] ∧
    positionalArgs ["web", "-n", "default"] = ["web"] ∧
    List.drop (positionalArgs ["web", "-n", "default"]).length ["web", "-n", "default"] =
      ["-n", "default"] :=
  ⟨(parseFlags_exactly_one_positional _ ["web", "db", "-json"]).2.2.2.2.1 (by decide),
   by decide, by decide, by decide, by decide⟩

/-! ## `outputConfig` -/

/-- C10 fails on the code: with JSON output off, `outputConfig` has sections for clusters
and endpoints only. With the listeners filter alone it prints nothing at all, and so it
does with the routes filter alone and with the secrets filter alone; with no filter it
prints the clusters section and the endpoints section and no other. In every case the
only messages it prints are "Clusters", "Endpoints" and the empty line. -/
theorem outputConfig_has_two_sections (sprintfF : Float64 → String) (config : EnvoyConfig)
    (ns pod kubeConfig kubeContext : String) :
    ReadCommand.outputConfig sprintfF
      { flagNamespace := ns, flagJSON := false, flagClusters := false, flagListeners := true,
        flagRoutes := false, flagEndpoints := false, flagSecrets := false,
        flagKubeConfig := kubeConfig, flagKubeContext := kubeContext, flagPodName := pod }
      config = [] ∧
    ReadCommand.outputConfig sprintfF
      { flagNamespace := ns, flagJSON := false, flagClusters := false, flagListeners := false,
        flagRoutes := true, flagEndpoints := false, flagSecrets := false,
        flagKubeConfig := kubeConfig, flagKubeContext := kubeContext, flagPodName := pod }
      config = [] ∧
    ReadCommand.outputConfig sprintfF
      { flagNamespace := ns, flagJSON := false, flagClusters := false, flagListeners := false,
        flagRoutes := false, flagEndpoints := false, flagSecrets := true,
        flagKubeConfig := kubeConfig, flagKubeContext := kubeContext, flagPodName := pod }
      config = [] ∧
    (ReadCommand.outputConfig sprintfF
      { flagNamespace := ns, flagJSON := false, flagClusters := false, flagListeners := false,
        flagRoutes := false, flagEndpoints := false, flagSecrets := false,
        flagKubeConfig := kubeConfig, flagKubeContext := kubeContext, flagPodName := pod }
      config).filterMap (fun call =>
        match call with
        | UICall.Output msg Style.header => some msg
        | _ => none) = ["Clusters", "Endpoints"] ∧
    (∀ (c : ReadCommand) (msg : String) (style : Style), c.flagJSON = false →
      UICall.Output msg style ∈ c.outputConfig sprintfF config →
      msg = "Clusters" ∨ msg = "Endpoints" ∨ msg = "") := by
  refine ⟨rfl, rfl, rfl, rfl, ?_⟩
  intro c msg style hjson hmem
  unfold ReadCommand.outputConfig at hmem
  simp only [hjson, Bool.false_eq_true, if_false, List.mem_append] at hmem
  rcases hmem with h | h
  · split at h
    · simp at h
      rcases h with ⟨h, -⟩ | ⟨h, -⟩ <;> simp [h]
    · simp at h
  · split at h
    · simp at h
      rcases h with ⟨h, -⟩ | ⟨h, -⟩ <;> simp [h]
    · simp at h
